import Mathlib

/-!
Verification of the core of the wgpu-hello-world renderer.

This file gives a shallow embedding of the renderer's data model and
operations, and proves the specified properties about them:

* the uniform-buffer pool (src/pass/mod.rs: UniformPool.alloc_buffers and
  UniformPool.update_uniform), with GPU buffer handles modelled as ids drawn
  from a device counter, and a Rust panic modelled as an Except.error;
* the camera controller (src/camera.rs: CameraController.update_camera),
  with f32 arithmetic idealised over the real numbers;
* the keyframe sampler over AnimationClip (src/model.rs gives the data type;
  the per-frame scan itself is modelled from the spec, see below);
* window resize and the per-frame surface-error dispatch (src/lib.rs:
  State.resize and the RedrawRequested arm of run), instrumented with an
  explicit effect trace for surface reconfiguration, logging and render
  attempts;
* the Phong render pass draw over a node list, modelled from the spec
  (the Pass trait in src/pass/mod.rs declares draw over a node list, but the
  implementation under src/pass/phong.rs is an earlier draft over a single
  model; the node-list draw is modelled from spec section 4.1), recording the
  command sequence and the bind-group / instance-buffer caches.

Machine integers (u32, u64, usize) are modelled as Nat: none of the verified
code paths can overflow them. f32 values are modelled as real numbers
(geometry) or rationals (timestamps), the usual idealisation.
-/

namespace Wgpu

/-! ## GPU device and buffers

Buffer and bind-group handles are modelled as natural-number ids handed out
by a monotone counter on the device. Two handles are the identical GPU
resource exactly when their ids are equal. -/

structure Device where
  nextId : Nat
deriving DecidableEq

/-- A created GPU buffer handle: its identity and its byte size. -/
structure GpuBuffer where
  id : Nat
  size : Nat
deriving DecidableEq

/-- Buffer creation: wgpu's device.create_buffer, returning a fresh handle. -/
def Device.create_buffer (d : Device) (size : Nat) : GpuBuffer × Device :=
  (⟨d.nextId, size⟩, ⟨d.nextId + 1⟩)

/-! ## UniformPool (src/pass/mod.rs) -/

structure UniformPool where
  label : String
  buffers : List GpuBuffer
  size : Nat

def UniformPool.new (label : String) (size : Nat) : UniformPool :=
  ⟨label, [], size⟩

/-- The body of the for-loop in UniformPool.alloc_buffers: push one freshly
created uniform buffer per iteration. -/
def allocLoop (p : UniformPool) (d : Device) : Nat → UniformPool × Device
  | 0 => (p, d)
  | n + 1 =>
    let created := d.create_buffer p.size
    allocLoop { p with buffers := p.buffers ++ [created.1] } created.2 n

/-- UniformPool.alloc_buffers: reset the buffer list, then create count
fresh uniform-sized buffers. -/
def UniformPool.alloc_buffers (p : UniformPool) (count : Nat) (d : Device) :
    UniformPool × Device :=
  allocLoop { p with buffers := [] } d count

/-- A queued buffer write (wgpu's queue.write_buffer). -/
inductive WriteOp (α : Type) where
  | write (buffer : GpuBuffer) (offset : Nat) (data : α)
deriving DecidableEq

/-- UniformPool.update_uniform: if the pool is non-empty, index the buffer
list at index (a Rust panic on out-of-bounds indexing is modelled as
Except.error) and queue a write; if the pool is empty, do nothing. -/
def UniformPool.update_uniform {α : Type} (p : UniformPool) (index : Nat)
    (data : α) : Except String (List (WriteOp α)) :=
  if 0 < p.buffers.length then
    match p.buffers[index]? with
    | some b => .ok [.write b 0 data]
    | none => .error "index out of bounds"
  else
    .ok []

/-! ## Camera (src/camera.rs)

The cgmath Point3 and Vector3 f32 types are idealised as vectors of reals. -/

@[ext]
structure Vec3 where
  x : ℝ
  y : ℝ
  z : ℝ

instance : Add Vec3 := ⟨fun a b => ⟨a.x + b.x, a.y + b.y, a.z + b.z⟩⟩
instance : Sub Vec3 := ⟨fun a b => ⟨a.x - b.x, a.y - b.y, a.z - b.z⟩⟩
instance : SMul ℝ Vec3 := ⟨fun s v => ⟨s * v.x, s * v.y, s * v.z⟩⟩

def Vec3.dot (a b : Vec3) : ℝ :=
  a.x * b.x + a.y * b.y + a.z * b.z

/-- cgmath's InnerSpace.magnitude. -/
noncomputable def Vec3.magnitude (v : Vec3) : ℝ :=
  Real.sqrt (v.dot v)

/-- cgmath's InnerSpace.normalize: the vector divided by its magnitude. -/
noncomputable def Vec3.normalize (v : Vec3) : Vec3 :=
  (1 / v.magnitude) • v

def Vec3.cross (a b : Vec3) : Vec3 :=
  ⟨a.y * b.z - a.z * b.y, a.z * b.x - a.x * b.z, a.x * b.y - a.y * b.x⟩

structure Camera where
  eye : Vec3
  target : Vec3
  up : Vec3
  aspect : ℝ
  fovy : ℝ
  znear : ℝ
  zfar : ℝ

structure CameraController where
  speed : ℝ
  is_up_pressed : Bool
  is_modifier_shift_pressed : Bool
  is_forward_pressed : Bool
  is_backward_pressed : Bool
  is_left_pressed : Bool
  is_right_pressed : Bool
  is_mouse_right_pressed : Bool
  is_mouse_right_tracked : Bool
  mouse_initial_position : ℝ × ℝ
  mouse_diff_position : ℝ × ℝ

/-- The forward branch of update_camera: guarded so the camera cannot step
through the scene center ("Prevents glitching when camera gets too close to
the center of the scene"). -/
noncomputable def forward_step (c : CameraController) (forward_norm : Vec3)
    (forward_mag : ℝ) (cam : Camera) : Camera :=
  if c.is_forward_pressed = true ∧ c.speed < forward_mag then
    { cam with eye := cam.eye + c.speed • forward_norm } else cam

/-- The backward branch of update_camera. -/
noncomputable def backward_step (c : CameraController) (forward_norm : Vec3)
    (cam : Camera) : Camera :=
  if c.is_backward_pressed = true then
    { cam with eye := cam.eye - c.speed • forward_norm } else cam

/-- The right-orbit branch of update_camera. -/
noncomputable def right_step (c : CameraController) (forward2 right : Vec3)
    (cam : Camera) : Camera :=
  if c.is_right_pressed = true then
    { cam with eye := cam.target - (forward2 - c.speed • right),
               target := cam.target + c.speed • right } else cam

/-- The left-orbit branch of update_camera. -/
noncomputable def left_step (c : CameraController) (forward2 right : Vec3)
    (cam : Camera) : Camera :=
  if c.is_left_pressed = true then
    { cam with eye := cam.target - (forward2 + c.speed • right),
               target := cam.target - c.speed • right } else cam

/-- The shifted jump branch of update_camera (space with left shift). -/
noncomputable def shift_up_step (c : CameraController) (forward2 : Vec3)
    (cam : Camera) : Camera :=
  if c.is_modifier_shift_pressed = true ∧ c.is_up_pressed = true then
    { cam with eye := cam.target - (forward2 + c.speed • cam.up),
               target := cam.target - c.speed • cam.up } else cam

/-- The unshifted jump branch of update_camera (space alone). -/
noncomputable def up_step (c : CameraController) (forward2 : Vec3)
    (cam : Camera) : Camera :=
  if c.is_modifier_shift_pressed = false ∧ c.is_up_pressed = true then
    { cam with eye := cam.target - (forward2 - c.speed • cam.up),
               target := cam.target + c.speed • cam.up } else cam

/-- The mouse-drag orbit branch of update_camera. -/
noncomputable def mouse_step (c : CameraController) (forward2 right : Vec3)
    (cam : Camera) : Camera :=
  if c.is_mouse_right_tracked = true then
    { cam with eye := cam.target - (forward2 + c.mouse_diff_position.1 • right) }
  else cam

/-- CameraController.update_camera (src/camera.rs lines 182-257). The Rust
body mutates the camera through a sequence of guarded blocks, one per step
function above, in source order. forward_norm and the first forward and
forward_mag are computed from the incoming camera; right is computed from
forward_norm and the current up; forward2 is the let forward recomputed
after the forward / backward movement and shared, exactly as in the source,
by all the later branches. -/
noncomputable def CameraController.update_camera (c : CameraController)
    (cam0 : Camera) : Camera :=
  let forward := cam0.target - cam0.eye
  let forward_norm := forward.normalize
  let forward_mag := forward.magnitude
  let cam2 := backward_step c forward_norm (forward_step c forward_norm forward_mag cam0)
  let right := forward_norm.cross cam2.up
  -- "Redo radius calc in case the up/ down is pressed."
  let forward2 := cam2.target - cam2.eye
  mouse_step c forward2 right
    (up_step c forward2
      (shift_up_step c forward2
        (left_step c forward2 right
          (right_step c forward2 right cam2))))

/-- The view-frustum configuration of a camera: every field except eye and
target. -/
def Camera.view_const (cam : Camera) : Vec3 × ℝ × ℝ × ℝ × ℝ :=
  (cam.up, cam.aspect, cam.fovy, cam.znear, cam.zfar)

/-! ## Animation clips (src/model.rs) and the keyframe sampler -/

/-- Keyframes (src/model.rs): a Translation payload or an unsupported
channel. f32 sample values are idealised as rationals. -/
inductive Keyframes where
  | translation (frames : List (List ℚ))
  | other
deriving DecidableEq

/-- AnimationClip (src/model.rs). -/
structure AnimationClip where
  name : String
  keyframes : Keyframes
  timestamps : List ℚ
deriving DecidableEq

/-- Modelled from the spec: the per-frame keyframe scan is not under src/
(src/model.rs only declares AnimationClip; the update loop that samples it
is missing). Spec 4.3: "given elapsed time t since session start, scan the
clip's timestamp sequence in order; advance a running keyframe index for
every timestamp ≤ t, except never advancing past the last index." The cap
argument is the last index, timestamps.len() - 1. -/
def scan_keyframe_index (cap : Nat) (t : ℚ) : List ℚ → Nat → Nat
  | [], idx => idx
  | ts :: rest, idx =>
    scan_keyframe_index cap t rest
      (if ts ≤ t then (if idx < cap then idx + 1 else idx) else idx)

/-- Modelled from the spec: resolve the active keyframe index of a clip at
elapsed time t (see scan_keyframe_index). -/
def resolve_keyframe_index (clip : AnimationClip) (t : ℚ) : Nat :=
  scan_keyframe_index (clip.timestamps.length - 1) t clip.timestamps 0

/-! ## Window state, resize and the per-frame error dispatch (src/lib.rs)

The embedding is instrumented with an explicit trace of externally visible
effects: surface reconfigurations, log warnings, and render attempts. -/

structure PhysicalSize where
  width : Nat
  height : Nat
deriving DecidableEq

/-- wgpu's SurfaceConfiguration; usage, format and present_mode are opaque
tokens, carried only to show resize leaves them untouched. -/
structure SurfaceConfiguration where
  usage : Nat
  format : Nat
  width : Nat
  height : Nat
  present_mode : Nat
deriving DecidableEq

/-- Modelled from the spec: the depth texture (texture.rs is not under src/,
only its callers). Spec: "Allocate a depth texture sized to the current
surface"; on resize "the depth texture is regenerated to matching
dimensions". Only its dimensions matter here. -/
structure DepthTexture where
  width : Nat
  height : Nat
deriving DecidableEq

/-- Modelled from the spec: Texture.create_depth_texture sizes the depth
texture to the surface configuration. -/
def create_depth_texture (config : SurfaceConfiguration) : DepthTexture :=
  ⟨config.width, config.height⟩

/-- An externally visible effect of the frame loop. -/
inductive Effect where
  | configureSurface (config : SurfaceConfiguration)
  | warnLog (msg : String)
  | renderFrame
deriving DecidableEq

/-- The application State (src/lib.rs), restricted to the fields resize and
the error dispatch touch. The depth_texture field is modelled from the spec
(the draft State in src/lib.rs has none; spec section 5 requires resize to
regenerate it). -/
structure State where
  config : SurfaceConfiguration
  size : PhysicalSize
  depth_texture : DepthTexture
deriving DecidableEq

/-- State.resize (src/lib.rs lines 308-315): when both dimensions are
positive, store the new size, update the configuration dimensions and
reconfigure the surface (emitting a configureSurface effect); the depth
texture regeneration is modelled from the spec. Otherwise do nothing. -/
def State.resize (s : State) (new_size : PhysicalSize) : State × List Effect :=
  if 0 < new_size.width ∧ 0 < new_size.height then
    let config := { s.config with width := new_size.width, height := new_size.height }
    ({ config := config, size := new_size, depth_texture := create_depth_texture config },
     [.configureSurface config])
  else (s, [])

/-- The wgpu SurfaceError variants. -/
inductive SurfaceError where
  | Lost
  | Outdated
  | OutOfMemory
  | Timeout
deriving DecidableEq

/-- The winit control flow values the loop uses. -/
inductive ControlFlow where
  | Poll
  | Exit
deriving DecidableEq

/-- The RedrawRequested arm of the event loop (src/lib.rs lines 459-471).
One render is attempted per RedrawRequested event (the renderFrame effect);
its result is dispatched on the error class: Lost and Outdated call
state.resize(state.size), OutOfMemory sets ControlFlow.Exit, Timeout logs a
warning, and success does nothing further. -/
def redraw_requested (s : State) (control_flow : ControlFlow)
    (render_result : Except SurfaceError Unit) :
    State × ControlFlow × List Effect :=
  match render_result with
  | .ok _ => (s, control_flow, [.renderFrame])
  | .error .Lost | .error .Outdated =>
    let resized := s.resize s.size
    (resized.1, control_flow, .renderFrame :: resized.2)
  | .error .OutOfMemory => (s, .Exit, [.renderFrame])
  | .error .Timeout => (s, control_flow, [.renderFrame, .warnLog "Surface timeout"])

/-! ## Scene nodes (src/node.rs, src/model.rs) -/

/-- Instance (declared in the missing src/instance.rs; spec section 3: a 3D
position and a rotation quaternion, immutable after creation). -/
structure Instance where
  position : ℚ × ℚ × ℚ
  rotation : ℚ × ℚ × ℚ × ℚ
deriving DecidableEq

/-- Locals (src/pass/phong.rs): four 4-float slots. -/
structure Locals where
  position : ℚ × ℚ × ℚ × ℚ
  color : ℚ × ℚ × ℚ × ℚ
  normal : ℚ × ℚ × ℚ × ℚ
  lights : ℚ × ℚ × ℚ × ℚ
deriving DecidableEq

/-- Mesh (src/model.rs): the GPU vertex/index buffers are opaque here; the
element count and material index drive the draw calls. -/
structure Mesh where
  name : String
  num_elements : Nat
  material : Nat
deriving DecidableEq

/-- Material (src/model.rs): the diffuse texture is an opaque view handle. -/
structure Material where
  name : String
  diffuse_texture : Nat
deriving DecidableEq

/-- Model (src/model.rs). -/
structure Model where
  meshes : List Mesh
  materials : List Material
  animations : List AnimationClip
deriving DecidableEq

/-- Node (src/node.rs). -/
structure Node where
  parent : Nat
  locals : Locals
  model : Model
  instances : List Instance
deriving DecidableEq

/-! ## The Phong pass draw over a node list

Modelled from the spec: the Pass trait (src/pass/mod.rs) declares
draw(surface, device, queue, nodes) over a node list, but the PhongPass
implementation under src/pass/phong.rs is an earlier draft over a single
model, so the node-list draw is modelled from spec section 4.1 steps 3-8:
ensure the uniform pool has at least nodes.len() buffers (reallocating
wholesale if not), lazily create the per-node local bind groups and instance
buffers, then record the light pass for node index 1 followed by the lit
pass over every node. The recorded commands are returned as an explicit
trace; sub-mesh draws are collapsed into one draw command tagged with the
node index. -/

/-- A lazily created local bind group: its handle id, the pool uniform
buffer it references, and the node's diffuse texture view. -/
structure BindGroup where
  id : Nat
  buffer : GpuBuffer
  texture : Nat
deriving DecidableEq

/-- The two pipelines of the Phong pass. -/
inductive Pipeline where
  | light
  | lit
deriving DecidableEq

/-- A recorded render-pass command. -/
inductive Cmd where
  | setPipeline (p : Pipeline)
  | setBindGroup (slot : Nat) (group : Nat)
  | setVertexBuffer (slot : Nat) (buffer : Nat)
  | drawNode (node : Nat) (instance_count : Nat)
deriving DecidableEq

/-- The PhongPass state the node-list draw reads and updates: the device
counter, the global bind group, the uniform pool, and the two per-node
caches keyed by node index. -/
structure PhongPass where
  device : Device
  global_bind_group : Nat
  uniform_pool : UniformPool
  local_bind_groups : List (Nat × BindGroup)
  instance_buffers : List (Nat × GpuBuffer)

/-- Spec 4.1 step 3: ensure the pool has at least nodes.len() buffers,
reallocating wholesale (UniformPool.alloc_buffers) if not. -/
def ensure_pool (p : PhongPass) (nodes : List Node) : PhongPass :=
  if p.uniform_pool.buffers.length < nodes.length then
    let realloc := p.uniform_pool.alloc_buffers nodes.length p.device
    { p with uniform_pool := realloc.1, device := realloc.2 }
  else p

/-- Spec 4.1 step 4 for one node: if node index i has no cached local bind
group, create one from its uniform buffer slot and its material's diffuse
texture. -/
def add_local_bind_group (p : PhongPass) (i : Nat) (nd : Node) : PhongPass :=
  match p.local_bind_groups.lookup i with
  | some _ => p
  | none =>
    let bg : BindGroup :=
      ⟨p.device.nextId, p.uniform_pool.buffers.getD i ⟨0, 0⟩,
       ((nd.model.materials.getD 0 ⟨"", 0⟩).diffuse_texture)⟩
    { p with device := ⟨p.device.nextId + 1⟩,
             local_bind_groups := p.local_bind_groups ++ [(i, bg)] }

/-- Spec 4.1 step 4: fill the local bind-group cache for every node, in
list order starting at index i. -/
def fill_local_bind_groups (p : PhongPass) : List Node → Nat → PhongPass
  | [], _ => p
  | nd :: rest, i => fill_local_bind_groups (add_local_bind_group p i nd) rest (i + 1)

/-- Spec 4.1 step 5 for one node: if node index i has no cached instance
buffer, flatten its instance list (64 bytes per raw instance) and upload
it. -/
def add_instance_buffer (p : PhongPass) (i : Nat) (nd : Node) : PhongPass :=
  match p.instance_buffers.lookup i with
  | some _ => p
  | none =>
    let created := p.device.create_buffer (nd.instances.length * 64)
    { p with device := created.2,
             instance_buffers := p.instance_buffers ++ [(i, created.1)] }

/-- Spec 4.1 step 5: fill the instance-buffer cache for every node, in list
order starting at index i. -/
def fill_instance_buffers (p : PhongPass) : List Node → Nat → PhongPass
  | [], _ => p
  | nd :: rest, i => fill_instance_buffers (add_instance_buffer p i nd) rest (i + 1)

/-- The cached local bind-group handle for node index i (0 if missing; after
the fill phase every drawn node has one). -/
def local_bind_group_id (p : PhongPass) (i : Nat) : Nat :=
  match p.local_bind_groups.lookup i with
  | some bg => bg.id
  | none => 0

/-- The cached instance-buffer handle for node index i (0 if missing). -/
def instance_buffer_id (p : PhongPass) (i : Nat) : Nat :=
  match p.instance_buffers.lookup i with
  | some b => b.id
  | none => 0

/-- The instance count of node index i of the node list (0 if absent). -/
def node_instance_count (nodes : List Node) (i : Nat) : Nat :=
  match nodes[i]? with
  | some nd => nd.instances.length
  | none => 0

/-- Spec 4.1 step 6: set the light pipeline and draw the hardcoded
light-source node, index 1, with the global bind group and its local bind
group, instanced over its instance count. -/
def light_pass_cmds (p : PhongPass) (nodes : List Node) : List Cmd :=
  [.setPipeline .light,
   .setBindGroup 0 p.global_bind_group,
   .setBindGroup 1 (local_bind_group_id p 1),
   .drawNode 1 (node_instance_count nodes 1)]

/-- Spec 4.1 step 8: for every node in list order (indexed from i), bind its
instance buffer at vertex slot 1 and its local bind group at slot 1, then
issue its instanced draw. -/
def lit_node_cmds (p : PhongPass) : List Node → Nat → List Cmd
  | [], _ => []
  | nd :: rest, i =>
    [.setVertexBuffer 1 (instance_buffer_id p i),
     .setBindGroup 1 (local_bind_group_id p i),
     .drawNode i nd.instances.length] ++ lit_node_cmds p rest (i + 1)

/-- Spec 4.1 steps 7-8: set the lit pipeline, bind the global bind group
once, then draw every node. -/
def lit_pass_cmds (p : PhongPass) (nodes : List Node) : List Cmd :=
  [.setPipeline .lit, .setBindGroup 0 p.global_bind_group] ++ lit_node_cmds p nodes 0

/-- The node-list draw (spec 4.1 steps 3-8): prepare the pool and both
caches, then record the light pass followed by the lit pass. Returns the
updated pass state and the recorded command sequence. -/
def PhongPass.draw (p : PhongPass) (nodes : List Node) : PhongPass × List Cmd :=
  let p1 := ensure_pool p nodes
  let p2 := fill_local_bind_groups p1 nodes 0
  let p3 := fill_instance_buffers p2 nodes 0
  (p3, light_pass_cmds p3 nodes ++ lit_pass_cmds p3 nodes)

/-! ## Concrete example values used by the witness theorems -/

/-- A camera controller with only the right-orbit flag pressed. -/
noncomputable def ctrlOrbit : CameraController :=
  ⟨1, false, false, false, false, false, true, false, false, (0, 0), (0, 0)⟩

/-- A camera controller with only the forward flag pressed. -/
noncomputable def ctrlForward : CameraController :=
  ⟨1, false, false, true, false, false, false, false, false, (0, 0), (0, 0)⟩

/-- A camera two units from its target. -/
noncomputable def camTwo : Camera :=
  ⟨⟨0, 0, 0⟩, ⟨2, 0, 0⟩, ⟨0, 1, 0⟩, 1, 45, 1 / 10, 100⟩

/-- A camera one and a half units from its target: more than the step speed
away, but close enough that one forward step lands within the step speed. -/
noncomputable def camClose : Camera :=
  ⟨⟨0, 0, 0⟩, ⟨3 / 2, 0, 0⟩, ⟨0, 1, 0⟩, 1, 45, 1 / 10, 100⟩

/-- A camera three units from its target. -/
noncomputable def camFar : Camera :=
  ⟨⟨0, 0, 0⟩, ⟨3, 0, 0⟩, ⟨0, 1, 0⟩, 1, 45, 1 / 10, 100⟩

/-- A three-keyframe translation clip. -/
def clipSteps : AnimationClip :=
  ⟨"Steps", .translation [[0, 0, 0], [1, 0, 0], [2, 0, 0]], [0, 1, 2]⟩

/-- A concrete application state at 640 x 480. -/
def stateVga : State :=
  ⟨⟨1, 7, 640, 480, 2⟩, ⟨640, 480⟩, ⟨640, 480⟩⟩

/-- A one-buffer uniform pool whose only valid index is 0. -/
def poolOne : UniformPool :=
  ⟨"[Phong] Locals", [⟨0, 64⟩], 64⟩

def meshCube : Mesh := ⟨"Cube", 36, 0⟩

def matCube : Material := ⟨"Cube material", 5⟩

def modelCube : Model := ⟨[meshCube], [matCube], []⟩

def localsZero : Locals :=
  ⟨(0, 0, 0, 1), (1, 1, 1, 1), (0, 1, 0, 0), (1, 0, 0, 0)⟩

def nodeGrid : Node :=
  ⟨0, localsZero, modelCube,
   [⟨(0, 0, 0), (0, 0, 0, 1)⟩, ⟨(3, 0, 0), (0, 0, 0, 1)⟩]⟩

def nodeLight : Node :=
  ⟨0, localsZero, modelCube, [⟨(2, 2, 2), (0, 0, 0, 1)⟩]⟩

/-- A freshly constructed pass: empty pool, empty caches. -/
def passFresh : PhongPass :=
  ⟨⟨10⟩, 3, UniformPool.new "[Phong] Locals" 64, [], []⟩

/-! ## Lemmas about the uniform pool -/

/-- Each allocation loop iteration appends one buffer. -/
theorem allocLoop_length : ∀ (n : Nat) (p : UniformPool) (d : Device),
    (allocLoop p d n).1.buffers.length = p.buffers.length + n
  | 0, p, d => by simp [allocLoop]
  | n + 1, p, d => by
    simp only [allocLoop, Device.create_buffer]
    rw [allocLoop_length n]
    simp
    omega

/-- Every buffer the allocation loop returns is either an incoming one or a
fresh one: id at least the device counter and of the pool's byte size. -/
theorem allocLoop_mem : ∀ (n : Nat) (p : UniformPool) (d : Device),
    ∀ b ∈ (allocLoop p d n).1.buffers,
      b ∈ p.buffers ∨ (d.nextId ≤ b.id ∧ b.size = p.size)
  | 0, p, d => fun b hb => Or.inl hb
  | n + 1, p, d => by
    intro b hb
    simp only [allocLoop, Device.create_buffer] at hb
    rcases allocLoop_mem n _ _ b hb with h | h
    · rcases List.mem_append.mp h with h' | h'
      · exact Or.inl h'
      · rw [List.mem_singleton] at h'
        subst h'
        exact Or.inr ⟨Nat.le_refl _, rfl⟩
    · refine Or.inr ⟨?_, h.2⟩
      have h1 : d.nextId + 1 ≤ b.id := h.1
      omega

/-- C4: after UniformPool.alloc_buffers(count), the pool holds exactly count
buffers, each of the pool's configured byte size, and none of them is a
previously held handle (the previous handles are all discarded); the
hypothesis states that the device counter dominates the old handles, the
freshness invariant of handle creation. -/
theorem alloc_buffers_resets (p : UniformPool) (count : Nat) (d : Device)
    (hwf : ∀ b ∈ p.buffers, b.id < d.nextId) :
    (p.alloc_buffers count d).1.buffers.length = count ∧
    (∀ b ∈ (p.alloc_buffers count d).1.buffers, b.size = p.size) ∧
    (∀ b ∈ (p.alloc_buffers count d).1.buffers, b ∉ p.buffers) := by
  unfold UniformPool.alloc_buffers
  refine ⟨?_, ?_, ?_⟩
  · rw [allocLoop_length]
    simp
  · intro b hb
    rcases allocLoop_mem _ _ _ b hb with h | h
    · simp at h
    · exact h.2
  · intro b hb hbp
    rcases allocLoop_mem _ _ _ b hb with h | h
    · simp at h
    · exact absurd (hwf b hbp) (by omega)

/-- Witness for C4 at a concrete pool holding one stale buffer. -/
theorem alloc_buffers_resets_witness :
    (poolOne.alloc_buffers 3 ⟨1⟩).1.buffers.length = 3 ∧
    (∀ b ∈ (poolOne.alloc_buffers 3 ⟨1⟩).1.buffers, b.size = poolOne.size) ∧
    (∀ b ∈ (poolOne.alloc_buffers 3 ⟨1⟩).1.buffers, b ∉ poolOne.buffers) :=
  alloc_buffers_resets poolOne 3 ⟨1⟩ (by decide)

/-- C3, counterexample: update_uniform is not panic-free for every index.
On a pool holding one buffer, index 1 passes the non-empty test and then
indexes out of bounds, a hard error (Rust panic). -/
theorem update_uniform_not_total :
    ¬ ∀ (p : UniformPool) (index : Nat) (data : Nat),
        ∃ ws, p.update_uniform index data = .ok ws := by
  intro h
  obtain ⟨ws, hws⟩ := h poolOne 1 0
  simp [poolOne, UniformPool.update_uniform] at hws

/-- C3, amended: update_uniform is a silent no-op on an empty pool, writes
data into the buffer at index when one exists there, and hard-errors
(panics) exactly when the pool is non-empty and index is out of bounds. -/
theorem update_uniform_spec {α : Type} (p : UniformPool) (index : Nat) (data : α) :
    (p.buffers = [] → p.update_uniform index data = .ok []) ∧
    (∀ b, p.buffers[index]? = some b →
      p.update_uniform index data = .ok [.write b 0 data]) ∧
    (p.buffers ≠ [] → p.buffers.length ≤ index →
      p.update_uniform index data = .error "index out of bounds") := by
  refine ⟨?_, ?_, ?_⟩
  · intro h
    simp [UniformPool.update_uniform, h]
  · intro b hb
    have hlen : 0 < p.buffers.length := by
      cases hbuf : p.buffers with
      | nil => rw [hbuf] at hb; simp at hb
      | cons x xs => simp [hbuf]
    simp [UniformPool.update_uniform, hlen, hb]
  · intro hne hlen
    have h0 : 0 < p.buffers.length := List.length_pos.mpr hne
    have hnone : p.buffers[index]? = none := by
      rw [List.getElem?_eq_none_iff]
      exact hlen
    simp [UniformPool.update_uniform, h0, hnone]

/-- Witness for the amended C3: on the one-buffer pool, index 0 queues a
write into that buffer. -/
theorem update_uniform_spec_witness :
    poolOne.update_uniform 0 (37 : Nat) = .ok [.write ⟨0, 64⟩ 0 37] :=
  (update_uniform_spec poolOne 0 37).2.1 ⟨0, 64⟩ (by decide)

/-! ## Resize and the per-frame error dispatch -/

/-- C8: a resize to positive dimensions stores the new size, rewrites only
the width and height of the surface configuration, reconfigures the surface
with it, and regenerates the depth texture to matching dimensions; a resize
to (0, 0) changes nothing and emits no effect. -/
theorem resize_spec (s : State) (w h : Nat) (hw : 0 < w) (hh : 0 < h) :
    ((s.resize ⟨w, h⟩).1.size = ⟨w, h⟩ ∧
     (s.resize ⟨w, h⟩).1.config = { s.config with width := w, height := h } ∧
     (s.resize ⟨w, h⟩).1.depth_texture = ⟨w, h⟩ ∧
     (s.resize ⟨w, h⟩).2 = [.configureSurface { s.config with width := w, height := h }]) ∧
    s.resize ⟨0, 0⟩ = (s, []) := by
  constructor
  · simp [State.resize, create_depth_texture, hw, hh]
  · simp [State.resize]

/-- Witness for C8: the spec's scenario, a resize to (800, 600). -/
theorem resize_spec_witness :
    ((stateVga.resize ⟨800, 600⟩).1.size = ⟨800, 600⟩ ∧
     (stateVga.resize ⟨800, 600⟩).1.config
       = { stateVga.config with width := 800, height := 600 } ∧
     (stateVga.resize ⟨800, 600⟩).1.depth_texture = ⟨800, 600⟩ ∧
     (stateVga.resize ⟨800, 600⟩).2
       = [.configureSurface { stateVga.config with width := 800, height := 600 }]) ∧
    stateVga.resize ⟨0, 0⟩ = (stateVga, []) :=
  resize_spec stateVga 800 600 (by norm_num) (by norm_num)

/-- C9: the render result is dispatched exactly by error class. Lost and
Outdated reconfigure the surface against the last known size (via resize,
which for a positive stored size emits exactly one configureSurface effect);
OutOfMemory sets the control flow to Exit; Timeout only logs a warning; a
successful render triggers none of these; and no class re-renders
synchronously: every dispatch records exactly one render attempt. -/
theorem redraw_dispatch (s : State) (cf : ControlFlow) :
    (redraw_requested s cf (.ok ()) = (s, cf, [.renderFrame])) ∧
    (∀ e, e = SurfaceError.Lost ∨ e = SurfaceError.Outdated →
      redraw_requested s cf (.error e)
        = ((s.resize s.size).1, cf, .renderFrame :: (s.resize s.size).2)) ∧
    (0 < s.size.width → 0 < s.size.height →
      (s.resize s.size).2
        = [.configureSurface
            { s.config with width := s.size.width, height := s.size.height }]) ∧
    (redraw_requested s cf (.error .OutOfMemory) = (s, .Exit, [.renderFrame])) ∧
    (redraw_requested s cf (.error .Timeout)
        = (s, cf, [.renderFrame, .warnLog "Surface timeout"])) ∧
    (∀ r, ((redraw_requested s cf r).2.2.count .renderFrame) = 1) := by
  have hres : Effect.renderFrame ∉ (s.resize s.size).2 := by
    unfold State.resize
    split <;> simp
  refine ⟨rfl, ?_, ?_, rfl, rfl, ?_⟩
  · rintro e (rfl | rfl) <;> rfl
  · intro hw hh
    simp [State.resize, hw, hh]
  · intro r
    cases r with
    | ok a => simp [redraw_requested]
    | error e =>
      cases e <;>
        simp [redraw_requested, List.count_cons, List.count_eq_zero.mpr hres]

/-- Witness for C9 at a concrete 640 x 480 state. -/
theorem redraw_dispatch_witness :
    redraw_requested stateVga .Poll (.error .OutOfMemory)
      = (stateVga, .Exit, [.renderFrame]) ∧
    (stateVga.resize stateVga.size).2
      = [.configureSurface
          { stateVga.config with width := stateVga.size.width,
                                 height := stateVga.size.height }] := by
  obtain ⟨h1, h2, h3, h4, h5, h6⟩ := redraw_dispatch stateVga .Poll
  exact ⟨h4, h3 (by norm_num [stateVga]) (by norm_num [stateVga])⟩

/-! ## Vector component lemmas -/

@[simp]
theorem Vec3.add_x (a b : Vec3) : (a + b).x = a.x + b.x := rfl

@[simp]
theorem Vec3.add_y (a b : Vec3) : (a + b).y = a.y + b.y := rfl

@[simp]
theorem Vec3.add_z (a b : Vec3) : (a + b).z = a.z + b.z := rfl

@[simp]
theorem Vec3.sub_x (a b : Vec3) : (a - b).x = a.x - b.x := rfl

@[simp]
theorem Vec3.sub_y (a b : Vec3) : (a - b).y = a.y - b.y := rfl

@[simp]
theorem Vec3.sub_z (a b : Vec3) : (a - b).z = a.z - b.z := rfl

@[simp]
theorem Vec3.smul_x (s : ℝ) (v : Vec3) : (s • v).x = s * v.x := rfl

@[simp]
theorem Vec3.smul_y (s : ℝ) (v : Vec3) : (s • v).y = s * v.y := rfl

@[simp]
theorem Vec3.smul_z (s : ℝ) (v : Vec3) : (s • v).z = s * v.z := rfl

/-- Scaling a vector scales its magnitude by the absolute factor. -/
theorem Vec3.magnitude_smul (a : ℝ) (v : Vec3) :
    (a • v).magnitude = |a| * v.magnitude := by
  show Real.sqrt ((a • v).dot (a • v)) = |a| * Real.sqrt (v.dot v)
  have h : (a • v).dot (a • v) = a ^ 2 * v.dot v := by
    simp [Vec3.dot]
    ring
  rw [h, Real.sqrt_mul (sq_nonneg a), Real.sqrt_sq_eq_abs]

/-! ## Camera controller theorems -/

/-- C6: an orbit input (only the left flag, or only the right flag) moves
eye and target by the same offset, so the eye-to-target distance is exactly
preserved by update_camera. -/
theorem update_camera_orbit_preserves_distance (c : CameraController) (cam : Camera)
    (hf : c.is_forward_pressed = false) (hbp : c.is_backward_pressed = false)
    (hu : c.is_up_pressed = false) (hmt : c.is_mouse_right_tracked = false)
    (horbit : (c.is_left_pressed = true ∧ c.is_right_pressed = false) ∨
      (c.is_right_pressed = true ∧ c.is_left_pressed = false)) :
    ((c.update_camera cam).target - (c.update_camera cam).eye).magnitude
      = (cam.target - cam.eye).magnitude := by
  have key : (c.update_camera cam).target - (c.update_camera cam).eye
      = cam.target - cam.eye := by
    rcases horbit with ⟨hl, hr⟩ | ⟨hr, hl⟩ <;>
      · simp [CameraController.update_camera, forward_step, backward_step,
          right_step, left_step, shift_up_step, up_step, mouse_step,
          hf, hbp, hu, hmt, hl, hr]
        ext <;> simp
  rw [key]

/-- Witness for C6: a right orbit of the camera two units from its target. -/
theorem update_camera_orbit_preserves_distance_witness :
    ((ctrlOrbit.update_camera camTwo).target
      - (ctrlOrbit.update_camera camTwo).eye).magnitude
      = (camTwo.target - camTwo.eye).magnitude :=
  update_camera_orbit_preserves_distance ctrlOrbit camTwo rfl rfl rfl rfl
    (Or.inr ⟨rfl, rfl⟩)

/-- With only the forward flag pressed, update_camera either advances the
eye one speed step along the normalized forward vector (when the forward
magnitude exceeds the speed) or does nothing. -/
theorem update_camera_forward_only (c : CameraController) (cam : Camera)
    (hf : c.is_forward_pressed = true) (hbp : c.is_backward_pressed = false)
    (hl : c.is_left_pressed = false) (hr : c.is_right_pressed = false)
    (hu : c.is_up_pressed = false) (hmt : c.is_mouse_right_tracked = false) :
    c.update_camera cam
      = if c.speed < (cam.target - cam.eye).magnitude then
          { cam with eye := cam.eye + c.speed • (cam.target - cam.eye).normalize }
        else cam := by
  simp [CameraController.update_camera, forward_step, backward_step,
    right_step, left_step, shift_up_step, up_step, mouse_step,
    hf, hbp, hl, hr, hu, hmt]

/-- C7, counterexample: a forward step can leave the eye-to-target distance
strictly below the configured step speed. With speed 1 and the target 3/2
away, the guard passes, yet after the step the distance is 1/2 < 1. -/
theorem update_camera_forward_below_speed :
    ctrlForward.speed < (camClose.target - camClose.eye).magnitude ∧
    ((ctrlForward.update_camera camClose).target
      - (ctrlForward.update_camera camClose).eye).magnitude < ctrlForward.speed := by
  have hmag : (camClose.target - camClose.eye).magnitude = 3 / 2 := by
    have hdot : (camClose.target - camClose.eye).dot (camClose.target - camClose.eye)
        = (3 / 2) ^ 2 := by
      simp [camClose, Vec3.dot]
      norm_num
    rw [Vec3.magnitude, hdot, Real.sqrt_sq (by norm_num)]
  have heye : camClose.eye + ctrlForward.speed • (camClose.target - camClose.eye).normalize
      = ⟨1, 0, 0⟩ := by
    rw [Vec3.normalize, hmag]
    ext <;> simp [camClose, ctrlForward]
  have hcam : ctrlForward.update_camera camClose = { camClose with eye := ⟨1, 0, 0⟩ } := by
    rw [update_camera_forward_only ctrlForward camClose rfl rfl rfl rfl rfl rfl,
      if_pos (by rw [hmag]; norm_num [ctrlForward]), heye]
  constructor
  · rw [hmag]
    norm_num [ctrlForward]
  · have hmag' : (({ camClose with eye := ⟨1, 0, 0⟩ } : Camera).target
        - ({ camClose with eye := ⟨1, 0, 0⟩ } : Camera).eye).magnitude = 1 / 2 := by
      have hdot : (({ camClose with eye := ⟨1, 0, 0⟩ } : Camera).target
          - ({ camClose with eye := ⟨1, 0, 0⟩ } : Camera).eye).dot
          (({ camClose with eye := ⟨1, 0, 0⟩ } : Camera).target
          - ({ camClose with eye := ⟨1, 0, 0⟩ } : Camera).eye) = (1 / 2) ^ 2 := by
        simp [camClose, Vec3.dot]
        norm_num
      rw [Vec3.magnitude, hdot, Real.sqrt_sq (by norm_num)]
    rw [hcam, hmag']
    norm_num [ctrlForward]

/-- C7, amended: with only the forward flag pressed and a positive step
speed, the eye advances only when the forward magnitude exceeds the speed
(otherwise the camera is unchanged), and an advance shortens the
eye-to-target distance by exactly the step speed, leaving it positive: the
eye never reaches or crosses the target (the distance may drop below the
step speed). -/
theorem update_camera_forward_guarded (c : CameraController) (cam : Camera)
    (hf : c.is_forward_pressed = true) (hbp : c.is_backward_pressed = false)
    (hl : c.is_left_pressed = false) (hr : c.is_right_pressed = false)
    (hu : c.is_up_pressed = false) (hmt : c.is_mouse_right_tracked = false)
    (hs : 0 < c.speed) :
    ((cam.target - cam.eye).magnitude ≤ c.speed → c.update_camera cam = cam) ∧
    (c.speed < (cam.target - cam.eye).magnitude →
      ((c.update_camera cam).target - (c.update_camera cam).eye).magnitude
          = (cam.target - cam.eye).magnitude - c.speed ∧
      0 < ((c.update_camera cam).target - (c.update_camera cam).eye).magnitude) := by
  rw [update_camera_forward_only c cam hf hbp hl hr hu hmt]
  constructor
  · intro h
    rw [if_neg (not_lt.mpr h)]
  · intro h
    rw [if_pos h]
    set m := (cam.target - cam.eye).magnitude with hmdef
    have hm0 : 0 < m := lt_trans hs h
    have hfrac : 0 < 1 - c.speed / m := by
      have : c.speed / m < 1 := (div_lt_one hm0).mpr h
      linarith
    have hvec :
        ({ cam with eye := cam.eye + c.speed • (cam.target - cam.eye).normalize } : Camera).target
          - ({ cam with eye := cam.eye + c.speed • (cam.target - cam.eye).normalize } : Camera).eye
        = (1 - c.speed / m) • (cam.target - cam.eye) := by
      rw [Vec3.normalize, ← hmdef]
      ext <;> simp <;> ring
    rw [hvec, Vec3.magnitude_smul, ← hmdef, abs_of_pos hfrac]
    constructor
    · field_simp
    · exact mul_pos hfrac hm0

/-- Witness for the amended C7: a forward step of speed 1 from three units
away lands at distance 2, still positive. -/
theorem update_camera_forward_guarded_witness :
    ((ctrlForward.update_camera camFar).target
      - (ctrlForward.update_camera camFar).eye).magnitude
        = (camFar.target - camFar.eye).magnitude - ctrlForward.speed ∧
    0 < ((ctrlForward.update_camera camFar).target
      - (ctrlForward.update_camera camFar).eye).magnitude := by
  have hmag : (camFar.target - camFar.eye).magnitude = 3 := by
    have hdot : (camFar.target - camFar.eye).dot (camFar.target - camFar.eye) = 3 ^ 2 := by
      simp [camFar, Vec3.dot]
      norm_num
    rw [Vec3.magnitude, hdot, Real.sqrt_sq (by norm_num)]
  exact (update_camera_forward_guarded ctrlForward camFar rfl rfl rfl rfl rfl rfl
    (by norm_num [ctrlForward])).2 (by rw [hmag]; norm_num [ctrlForward])

/-- The forward branch leaves the view-frustum configuration untouched. -/
theorem forward_step_view (c : CameraController) (fn : Vec3) (fm : ℝ) (cam : Camera) :
    (forward_step c fn fm cam).view_const = cam.view_const := by
  simp only [forward_step]
  split <;> rfl

/-- The backward branch leaves the view-frustum configuration untouched. -/
theorem backward_step_view (c : CameraController) (fn : Vec3) (cam : Camera) :
    (backward_step c fn cam).view_const = cam.view_const := by
  simp only [backward_step]
  split <;> rfl

/-- The right-orbit branch leaves the view-frustum configuration untouched. -/
theorem right_step_view (c : CameraController) (f2 r : Vec3) (cam : Camera) :
    (right_step c f2 r cam).view_const = cam.view_const := by
  simp only [right_step]
  split <;> rfl

/-- The left-orbit branch leaves the view-frustum configuration untouched. -/
theorem left_step_view (c : CameraController) (f2 r : Vec3) (cam : Camera) :
    (left_step c f2 r cam).view_const = cam.view_const := by
  simp only [left_step]
  split <;> rfl

/-- The shifted jump branch leaves the view-frustum configuration untouched. -/
theorem shift_up_step_view (c : CameraController) (f2 : Vec3) (cam : Camera) :
    (shift_up_step c f2 cam).view_const = cam.view_const := by
  simp only [shift_up_step]
  split <;> rfl

/-- The unshifted jump branch leaves the view-frustum configuration untouched. -/
theorem up_step_view (c : CameraController) (f2 : Vec3) (cam : Camera) :
    (up_step c f2 cam).view_const = cam.view_const := by
  simp only [up_step]
  split <;> rfl

/-- The mouse-drag branch leaves the view-frustum configuration untouched. -/
theorem mouse_step_view (c : CameraController) (f2 r : Vec3) (cam : Camera) :
    (mouse_step c f2 r cam).view_const = cam.view_const := by
  simp only [mouse_step]
  split <;> rfl

/-- Every update_camera branch rebuilds the camera changing only eye and
target; the view-frustum configuration always comes through unchanged. -/
theorem update_camera_view_fields (c : CameraController) (cam : Camera) :
    (c.update_camera cam).view_const = cam.view_const := by
  simp only [CameraController.update_camera]
  rw [mouse_step_view, up_step_view, shift_up_step_view, left_step_view,
    right_step_view, backward_step_view, forward_step_view]

/-- C10: update_camera mutates only the camera's eye and target: up,
aspect, fovy, znear and zfar are unchanged, so the znear < zfar invariant
is preserved by every controller update. -/
theorem update_camera_only_moves_eye_target (c : CameraController) (cam : Camera) :
    ((c.update_camera cam).up = cam.up ∧
     (c.update_camera cam).aspect = cam.aspect ∧
     (c.update_camera cam).fovy = cam.fovy ∧
     (c.update_camera cam).znear = cam.znear ∧
     (c.update_camera cam).zfar = cam.zfar) ∧
    (cam.znear < cam.zfar →
      (c.update_camera cam).znear < (c.update_camera cam).zfar) := by
  have h := update_camera_view_fields c cam
  have h1 : (c.update_camera cam).up = cam.up := congrArg (fun t => t.1) h
  have h2 : (c.update_camera cam).aspect = cam.aspect := congrArg (fun t => t.2.1) h
  have h3 : (c.update_camera cam).fovy = cam.fovy := congrArg (fun t => t.2.2.1) h
  have h4 : (c.update_camera cam).znear = cam.znear := congrArg (fun t => t.2.2.2.1) h
  have h5 : (c.update_camera cam).zfar = cam.zfar := congrArg (fun t => t.2.2.2.2) h
  exact ⟨⟨h1, h2, h3, h4, h5⟩, fun hlt => by rw [h4, h5]; exact hlt⟩

/-- Witness for C10: a concrete orbit update keeps znear < zfar. -/
theorem update_camera_only_moves_eye_target_witness :
    (ctrlOrbit.update_camera camTwo).znear < (ctrlOrbit.update_camera camTwo).zfar :=
  (update_camera_only_moves_eye_target ctrlOrbit camTwo).2 (by norm_num [camTwo])

/-! ## Keyframe sampler theorems -/

/-- The scan computes the minimum of cap and the running index plus the
number of timestamps at or before the sample time. -/
theorem scan_keyframe_index_eq : ∀ (l : List ℚ) (cap : Nat) (t : ℚ) (idx : Nat),
    idx ≤ cap →
    scan_keyframe_index cap t l idx
      = min (idx + l.countP (fun x => decide (x ≤ t))) cap
  | [], cap, t, idx => fun h => by
    simp [scan_keyframe_index, Nat.min_eq_left h]
  | ts :: rest, cap, t, idx => fun h => by
    simp only [scan_keyframe_index]
    by_cases hts : ts ≤ t
    · rw [if_pos hts]
      by_cases hidx : idx < cap
      · rw [if_pos hidx, scan_keyframe_index_eq rest cap t (idx + 1) (by omega)]
        simp [List.countP_cons, hts]
        omega
      · rw [if_neg hidx, scan_keyframe_index_eq rest cap t idx h]
        simp [List.countP_cons, hts]
        omega
    · rw [if_neg hts, scan_keyframe_index_eq rest cap t idx h]
      simp [List.countP_cons, hts]

/-- In a sorted list every element is at most the last one. -/
theorem sorted_le_getLast : ∀ (l : List ℚ), l.Sorted (· ≤ ·) →
    ∀ x ∈ l, ∀ (h : l ≠ []), x ≤ l.getLast h
  | [], _, x, hx => by simp at hx
  | [a], _, x, hx => by
    intro h
    rcases List.mem_singleton.mp hx with rfl
    simp
  | a :: b :: rest, hs, x, hx => by
    intro h
    obtain ⟨ha, hrest⟩ := List.sorted_cons.mp hs
    have hne : b :: rest ≠ [] := List.cons_ne_nil _ _
    rw [List.getLast_cons hne]
    rcases List.mem_cons.mp hx with rfl | hx'
    · exact ha _ (List.getLast_mem hne)
    · exact sorted_le_getLast (b :: rest) hrest x hx' hne

/-- In a sorted list the head is at most every element. -/
theorem sorted_head_le : ∀ (l : List ℚ), l.Sorted (· ≤ ·) →
    ∀ x ∈ l, ∀ (h : l ≠ []), l.head h ≤ x
  | [], _, x, hx => by simp at hx
  | a :: rest, hs, x, hx => by
    intro h
    obtain ⟨ha, _⟩ := List.sorted_cons.mp hs
    rw [List.head_cons]
    rcases List.mem_cons.mp hx with rfl | hx'
    · exact le_refl _
    · exact ha _ hx'

/-- C5: for a Translation clip with at least one keyframe and sorted
timestamps, the resolved keyframe index is 0 before the first timestamp,
timestamps.len() - 1 at or after the last timestamp, non-decreasing along
non-decreasing sample times, and never exceeds timestamps.len() - 1. -/
theorem resolve_keyframe_index_spec (clip : AnimationClip) (frames : List (List ℚ))
    (_hk : clip.keyframes = .translation frames)
    (hne : clip.timestamps ≠ [])
    (hsorted : clip.timestamps.Sorted (· ≤ ·)) :
    (∀ t, t < clip.timestamps.head hne → resolve_keyframe_index clip t = 0) ∧
    (∀ t, clip.timestamps.getLast hne ≤ t →
      resolve_keyframe_index clip t = clip.timestamps.length - 1) ∧
    (∀ t1 t2, t1 ≤ t2 →
      resolve_keyframe_index clip t1 ≤ resolve_keyframe_index clip t2) ∧
    (∀ t, resolve_keyframe_index clip t ≤ clip.timestamps.length - 1) := by
  have hres : ∀ t, resolve_keyframe_index clip t
      = min (clip.timestamps.countP (fun x => decide (x ≤ t)))
          (clip.timestamps.length - 1) := by
    intro t
    rw [resolve_keyframe_index, scan_keyframe_index_eq _ _ _ 0 (Nat.zero_le _)]
    simp
  refine ⟨?_, ?_, ?_, ?_⟩
  · intro t ht
    rw [hres]
    have hzero : clip.timestamps.countP (fun x => decide (x ≤ t)) = 0 := by
      rw [List.countP_eq_zero]
      intro a ha
      simp only [decide_eq_true_eq]
      exact not_le.mpr (lt_of_lt_of_le ht (sorted_head_le _ hsorted a ha hne))
    rw [hzero]
    simp
  · intro t ht
    rw [hres]
    have hall : clip.timestamps.countP (fun x => decide (x ≤ t))
        = clip.timestamps.length := by
      rw [List.countP_eq_length]
      intro a ha
      simp only [decide_eq_true_eq]
      exact le_trans (sorted_le_getLast _ hsorted a ha hne) ht
    rw [hall]
    have : 1 ≤ clip.timestamps.length := List.length_pos.mpr hne
    omega
  · intro t1 t2 h12
    rw [hres, hres]
    have hmono : clip.timestamps.countP (fun x => decide (x ≤ t1))
        ≤ clip.timestamps.countP (fun x => decide (x ≤ t2)) := by
      apply List.countP_mono_left
      intro a _ ha
      simp only [decide_eq_true_eq] at ha ⊢
      exact le_trans ha h12
    omega
  · intro t
    rw [hres]
    exact Nat.min_le_right _ _

/-- Witness for C5 on the three-keyframe clip: index 0 before the first
timestamp, 2 at a time past the last, and always at most 2. -/
theorem resolve_keyframe_index_spec_witness :
    resolve_keyframe_index clipSteps (-1) = 0 ∧
    resolve_keyframe_index clipSteps 5 = 2 ∧
    resolve_keyframe_index clipSteps (1 / 2) ≤ 2 := by
  obtain ⟨h0, hlast, hmono, hbound⟩ :=
    resolve_keyframe_index_spec clipSteps [[0, 0, 0], [1, 0, 0], [2, 0, 0]]
      rfl (by decide) (by decide)
  refine ⟨h0 (-1) (by decide), ?_, hbound (1 / 2)⟩
  have h2 := hlast 5 (by decide)
  simpa [clipSteps] using h2

/-! ## Association-list lemmas for the per-node caches -/

/-- An existing lookup survives appending entries on the right. -/
theorem lookup_append_some {β : Type} :
    ∀ (l l' : List (Nat × β)) (i : Nat) (b : β),
      l.lookup i = some b → (l ++ l').lookup i = some b
  | [], _, _, _ => by
    intro h
    simp [List.lookup] at h
  | (k, v) :: rest, l', i, b => by
    intro h
    rw [List.cons_append]
    cases hik : (i == k) with
    | true =>
      simp only [List.lookup, hik] at h ⊢
      exact h
    | false =>
      simp only [List.lookup, hik] at h ⊢
      exact lookup_append_some rest l' i b h

/-- Appending a binding for an absent key makes it found. -/
theorem lookup_append_self {β : Type} :
    ∀ (l : List (Nat × β)) (i : Nat) (b : β),
      l.lookup i = none → (l ++ [(i, b)]).lookup i = some b
  | [], i, b => by
    intro _
    simp [List.lookup]
  | (k, v) :: rest, i, b => by
    intro h
    rw [List.cons_append]
    cases hik : (i == k) with
    | true =>
      simp [List.lookup, hik] at h
    | false =>
      simp only [List.lookup, hik] at h ⊢
      exact lookup_append_self rest i b h

/-! ## Cache-fill lemmas for the Phong pass -/

/-- Adding a bind group for one node keeps every cached bind group. -/
theorem add_lbg_preserves (p : PhongPass) (i : Nat) (nd : Node) (j : Nat)
    (bg : BindGroup) (h : p.local_bind_groups.lookup j = some bg) :
    (add_local_bind_group p i nd).local_bind_groups.lookup j = some bg := by
  unfold add_local_bind_group
  cases hl : p.local_bind_groups.lookup i with
  | some _ => simpa only [hl] using h
  | none =>
    simp only [hl]
    exact lookup_append_some _ _ _ _ h

/-- After adding, node index i has a cached bind group. -/
theorem add_lbg_some (p : PhongPass) (i : Nat) (nd : Node) :
    ∃ bg, (add_local_bind_group p i nd).local_bind_groups.lookup i = some bg := by
  unfold add_local_bind_group
  cases hl : p.local_bind_groups.lookup i with
  | some bg =>
    refine ⟨bg, ?_⟩
    simp only [hl]
  | none =>
    simp only [hl]
    exact ⟨_, lookup_append_self _ _ _ hl⟩

/-- The bind-group fill phase keeps every cached bind group. -/
theorem fill_lbg_preserves : ∀ (l : List Node) (p : PhongPass) (i0 j : Nat)
    (bg : BindGroup), p.local_bind_groups.lookup j = some bg →
    (fill_local_bind_groups p l i0).local_bind_groups.lookup j = some bg
  | [], _, _, _, _ => fun h => h
  | nd :: rest, p, i0, j, bg => fun h => by
    simp only [fill_local_bind_groups]
    exact fill_lbg_preserves rest _ (i0 + 1) j bg (add_lbg_preserves p i0 nd j bg h)

/-- After the bind-group fill phase every listed node index is cached. -/
theorem fill_lbg_covers : ∀ (l : List Node) (p : PhongPass) (i0 k : Nat),
    k < l.length →
    ∃ bg, (fill_local_bind_groups p l i0).local_bind_groups.lookup (i0 + k) = some bg
  | [], _, _, k => by
    intro h
    simp at h
  | nd :: rest, p, i0, k => by
    intro h
    cases k with
    | zero =>
      obtain ⟨bg, hbg⟩ := add_lbg_some p i0 nd
      exact ⟨bg, fill_lbg_preserves rest _ (i0 + 1) i0 bg hbg⟩
    | succ k' =>
      have h' : k' < rest.length := by
        simp at h
        omega
      obtain ⟨bg, hbg⟩ := fill_lbg_covers rest (add_local_bind_group p i0 nd) (i0 + 1) k' h'
      refine ⟨bg, ?_⟩
      simp only [fill_local_bind_groups]
      rw [show i0 + (k' + 1) = (i0 + 1) + k' from by omega]
      exact hbg

/-- The bind-group fill phase is a no-op when every listed node index is
already cached. -/
theorem fill_lbg_nop : ∀ (l : List Node) (p : PhongPass) (i0 : Nat),
    (∀ k, k < l.length → ∃ bg, p.local_bind_groups.lookup (i0 + k) = some bg) →
    fill_local_bind_groups p l i0 = p
  | [], _, _ => fun _ => rfl
  | nd :: rest, p, i0 => fun hcov => by
    obtain ⟨bg, hbg⟩ := hcov 0 (by simp)
    rw [Nat.add_zero] at hbg
    have hadd : add_local_bind_group p i0 nd = p := by
      unfold add_local_bind_group
      simp only [hbg]
    simp only [fill_local_bind_groups, hadd]
    refine fill_lbg_nop rest p (i0 + 1) fun k hk => ?_
    have h := hcov (k + 1) (by simp; omega)
    rwa [show i0 + (k + 1) = (i0 + 1) + k from by omega] at h

/-- The bind-group fill phase touches neither the pool nor the
instance-buffer cache nor the global bind group. -/
theorem fill_lbg_fields : ∀ (l : List Node) (p : PhongPass) (i0 : Nat),
    (fill_local_bind_groups p l i0).uniform_pool = p.uniform_pool ∧
    (fill_local_bind_groups p l i0).instance_buffers = p.instance_buffers ∧
    (fill_local_bind_groups p l i0).global_bind_group = p.global_bind_group
  | [], _, _ => ⟨rfl, rfl, rfl⟩
  | nd :: rest, p, i0 => by
    have hadd : (add_local_bind_group p i0 nd).uniform_pool = p.uniform_pool ∧
        (add_local_bind_group p i0 nd).instance_buffers = p.instance_buffers ∧
        (add_local_bind_group p i0 nd).global_bind_group = p.global_bind_group := by
      unfold add_local_bind_group
      cases hl : p.local_bind_groups.lookup i0 <;> simp [hl]
    obtain ⟨h1, h2, h3⟩ := fill_lbg_fields rest (add_local_bind_group p i0 nd) (i0 + 1)
    exact ⟨h1.trans hadd.1, h2.trans hadd.2.1, h3.trans hadd.2.2⟩

/-- Adding an instance buffer for one node keeps every cached buffer. -/
theorem add_ib_preserves (p : PhongPass) (i : Nat) (nd : Node) (j : Nat)
    (b : GpuBuffer) (h : p.instance_buffers.lookup j = some b) :
    (add_instance_buffer p i nd).instance_buffers.lookup j = some b := by
  unfold add_instance_buffer
  cases hl : p.instance_buffers.lookup i with
  | some _ => simpa only [hl] using h
  | none =>
    simp only [hl]
    exact lookup_append_some _ _ _ _ h

/-- After adding, node index i has a cached instance buffer. -/
theorem add_ib_some (p : PhongPass) (i : Nat) (nd : Node) :
    ∃ b, (add_instance_buffer p i nd).instance_buffers.lookup i = some b := by
  unfold add_instance_buffer
  cases hl : p.instance_buffers.lookup i with
  | some b =>
    refine ⟨b, ?_⟩
    simp only [hl]
  | none =>
    simp only [hl]
    exact ⟨_, lookup_append_self _ _ _ hl⟩

/-- The instance-buffer fill phase keeps every cached buffer. -/
theorem fill_ib_preserves : ∀ (l : List Node) (p : PhongPass) (i0 j : Nat)
    (b : GpuBuffer), p.instance_buffers.lookup j = some b →
    (fill_instance_buffers p l i0).instance_buffers.lookup j = some b
  | [], _, _, _, _ => fun h => h
  | nd :: rest, p, i0, j, b => fun h => by
    simp only [fill_instance_buffers]
    exact fill_ib_preserves rest _ (i0 + 1) j b (add_ib_preserves p i0 nd j b h)

/-- After the instance-buffer fill phase every listed node index is cached. -/
theorem fill_ib_covers : ∀ (l : List Node) (p : PhongPass) (i0 k : Nat),
    k < l.length →
    ∃ b, (fill_instance_buffers p l i0).instance_buffers.lookup (i0 + k) = some b
  | [], _, _, k => by
    intro h
    simp at h
  | nd :: rest, p, i0, k => by
    intro h
    cases k with
    | zero =>
      obtain ⟨b, hb⟩ := add_ib_some p i0 nd
      exact ⟨b, fill_ib_preserves rest _ (i0 + 1) i0 b hb⟩
    | succ k' =>
      have h' : k' < rest.length := by
        simp at h
        omega
      obtain ⟨b, hb⟩ := fill_ib_covers rest (add_instance_buffer p i0 nd) (i0 + 1) k' h'
      refine ⟨b, ?_⟩
      simp only [fill_instance_buffers]
      rw [show i0 + (k' + 1) = (i0 + 1) + k' from by omega]
      exact hb

/-- The instance-buffer fill phase is a no-op when every listed node index
is already cached. -/
theorem fill_ib_nop : ∀ (l : List Node) (p : PhongPass) (i0 : Nat),
    (∀ k, k < l.length → ∃ b, p.instance_buffers.lookup (i0 + k) = some b) →
    fill_instance_buffers p l i0 = p
  | [], _, _ => fun _ => rfl
  | nd :: rest, p, i0 => fun hcov => by
    obtain ⟨b, hb⟩ := hcov 0 (by simp)
    rw [Nat.add_zero] at hb
    have hadd : add_instance_buffer p i0 nd = p := by
      unfold add_instance_buffer
      simp only [hb]
    simp only [fill_instance_buffers, hadd]
    refine fill_ib_nop rest p (i0 + 1) fun k hk => ?_
    have h := hcov (k + 1) (by simp; omega)
    rwa [show i0 + (k + 1) = (i0 + 1) + k from by omega] at h

/-- The instance-buffer fill phase touches neither the pool nor the
bind-group cache nor the global bind group. -/
theorem fill_ib_fields : ∀ (l : List Node) (p : PhongPass) (i0 : Nat),
    (fill_instance_buffers p l i0).uniform_pool = p.uniform_pool ∧
    (fill_instance_buffers p l i0).local_bind_groups = p.local_bind_groups ∧
    (fill_instance_buffers p l i0).global_bind_group = p.global_bind_group
  | [], _, _ => ⟨rfl, rfl, rfl⟩
  | nd :: rest, p, i0 => by
    have hadd : (add_instance_buffer p i0 nd).uniform_pool = p.uniform_pool ∧
        (add_instance_buffer p i0 nd).local_bind_groups = p.local_bind_groups ∧
        (add_instance_buffer p i0 nd).global_bind_group = p.global_bind_group := by
      unfold add_instance_buffer
      cases hl : p.instance_buffers.lookup i0 <;> simp [hl]
    obtain ⟨h1, h2, h3⟩ := fill_ib_fields rest (add_instance_buffer p i0 nd) (i0 + 1)
    exact ⟨h1.trans hadd.1, h2.trans hadd.2.1, h3.trans hadd.2.2⟩

/-- After ensuring, the pool holds at least one buffer per node. -/
theorem ensure_pool_length (p : PhongPass) (nodes : List Node) :
    nodes.length ≤ (ensure_pool p nodes).uniform_pool.buffers.length := by
  unfold ensure_pool
  split
  · rw [UniformPool.alloc_buffers, allocLoop_length]
    simp
  · omega

/-- A second draw with an unchanged node list leaves the whole pass state
untouched: the pool does not reallocate and both caches are already full. -/
theorem draw_second_nop (p : PhongPass) (nodes : List Node) :
    (((p.draw nodes).1).draw nodes).1 = (p.draw nodes).1 := by
  have hs1 : (p.draw nodes).1
      = fill_instance_buffers
          (fill_local_bind_groups (ensure_pool p nodes) nodes 0) nodes 0 := rfl
  set p1 := ensure_pool p nodes with hp1
  set p2 := fill_local_bind_groups p1 nodes 0 with hp2
  set p3 := fill_instance_buffers p2 nodes 0 with hp3
  have hpool3 : p3.uniform_pool = p1.uniform_pool :=
    (fill_ib_fields nodes p2 0).1.trans (fill_lbg_fields nodes p1 0).1
  have hlen3 : nodes.length ≤ p3.uniform_pool.buffers.length := by
    rw [hpool3]
    exact ensure_pool_length p nodes
  have hlbg3 : p3.local_bind_groups = p2.local_bind_groups :=
    (fill_ib_fields nodes p2 0).2.1
  have hlbgcov : ∀ k, k < nodes.length →
      ∃ bg, p3.local_bind_groups.lookup (0 + k) = some bg := by
    intro k hk
    rw [hlbg3]
    exact fill_lbg_covers nodes p1 0 k hk
  have hibcov : ∀ k, k < nodes.length →
      ∃ b, p3.instance_buffers.lookup (0 + k) = some b := fun k hk =>
    fill_ib_covers nodes p2 0 k hk
  have he : ensure_pool p3 nodes = p3 := by
    unfold ensure_pool
    rw [if_neg (Nat.not_lt.mpr hlen3)]
  have hf : fill_local_bind_groups p3 nodes 0 = p3 :=
    fill_lbg_nop nodes p3 0 hlbgcov
  have hg : fill_instance_buffers p3 nodes 0 = p3 :=
    fill_ib_nop nodes p3 0 hibcov
  show (p3.draw nodes).1 = p3
  simp only [PhongPass.draw]
  rw [he, hf, hg]

/-- C2: drawing twice in succession with an unchanged node list creates no
new resource on the second call: the bind-group cache, the instance-buffer
cache, the pool's buffer list and even the device handle counter are the
identical values after the second draw. -/
theorem draw_idempotent_caches (p : PhongPass) (nodes : List Node) :
    ((((p.draw nodes).1).draw nodes).1).local_bind_groups
        = (p.draw nodes).1.local_bind_groups ∧
    ((((p.draw nodes).1).draw nodes).1).instance_buffers
        = (p.draw nodes).1.instance_buffers ∧
    ((((p.draw nodes).1).draw nodes).1).uniform_pool.buffers
        = (p.draw nodes).1.uniform_pool.buffers ∧
    ((((p.draw nodes).1).draw nodes).1).device = (p.draw nodes).1.device := by
  have h := draw_second_nop p nodes
  exact ⟨congrArg PhongPass.local_bind_groups h,
    congrArg PhongPass.instance_buffers h,
    congrArg (fun s => s.uniform_pool.buffers) h,
    congrArg PhongPass.device h⟩

/-! ## Command-sequence lemmas for the two-pass draw -/

/-- The lit pass records the draw for the node at list offset m at command
offset 3 * m + 2, tagged with its absolute node index and instance count. -/
theorem lit_node_cmds_drawNode : ∀ (l : List Node) (p : PhongPass) (i0 m : Nat)
    (nd : Node), l[m]? = some nd →
    (lit_node_cmds p l i0)[3 * m + 2]? = some (.drawNode (i0 + m) nd.instances.length)
  | [], _, _, m, nd => by
    intro h
    simp at h
  | nd0 :: rest, p, i0, m, nd => by
    intro h
    cases m with
    | zero =>
      simp at h
      subst h
      simp [lit_node_cmds]
    | succ m' =>
      rw [show 3 * (m' + 1) + 2 = 3 * m' + 2 + 1 + 1 + 1 from by ring]
      have hcons : lit_node_cmds p (nd0 :: rest) i0
          = .setVertexBuffer 1 (instance_buffer_id p i0)
            :: .setBindGroup 1 (local_bind_group_id p i0)
            :: .drawNode i0 nd0.instances.length
            :: lit_node_cmds p rest (i0 + 1) := rfl
      rw [hcons]
      simp only [List.getElem?_cons_succ]
      rw [show i0 + (m' + 1) = (i0 + 1) + m' from by omega]
      exact lit_node_cmds_drawNode rest p (i0 + 1) m' nd (by simpa using h)

/-- The per-node lit commands never bind a pipeline. -/
theorem lit_node_cmds_no_pipeline : ∀ (l : List Node) (p : PhongPass) (i0 : Nat)
    (q : Pipeline), Cmd.setPipeline q ∉ lit_node_cmds p l i0
  | [], _, _, _ => by simp [lit_node_cmds]
  | nd :: rest, p, i0, q => by
    intro hmem
    simp only [lit_node_cmds] at hmem
    rcases List.mem_append.mp hmem with h | h
    · simp at h
    · exact lit_node_cmds_no_pipeline rest p (i0 + 1) q h

/-- C1: in the command sequence recorded by a draw over a node list with at
least two nodes, the light pipeline is bound (position i) and the draw for
the light-source node, index 1, is issued (position j) strictly before every
binding of the lit pipeline, and the per-node draws for all nodes (node 1
again included) come after the lit pipeline is bound: the lit pipeline is
never bound before the light-source draw has been recorded. -/
theorem draw_light_before_lit (p : PhongPass) (nodes : List Node)
    (h2 : 2 ≤ nodes.length) :
    ∃ n1, nodes[1]? = some n1 ∧
    ∃ (i j : Nat), i < j ∧
      (p.draw nodes).2[i]? = some (Cmd.setPipeline Pipeline.light) ∧
      (p.draw nodes).2[j]? = some (Cmd.drawNode 1 n1.instances.length) ∧
      (∀ (k : Nat), (p.draw nodes).2[k]? = some (Cmd.setPipeline Pipeline.lit) → j < k) ∧
      (∃ (k : Nat), j < k ∧ (p.draw nodes).2[k]? = some (Cmd.setPipeline Pipeline.lit) ∧
        ∀ (m : Nat) (nd : Node), nodes[m]? = some nd →
          ∃ (d : Nat), k < d ∧ (p.draw nodes).2[d]?
            = some (Cmd.drawNode m nd.instances.length)) := by
  obtain ⟨n1, hn1⟩ : ∃ n1, nodes[1]? = some n1 := by
    cases hg : nodes[1]? with
    | none =>
      rw [List.getElem?_eq_none_iff] at hg
      omega
    | some n1 => exact ⟨n1, rfl⟩
  have hcs : (p.draw nodes).2
      = .setPipeline .light
        :: .setBindGroup 0 ((p.draw nodes).1).global_bind_group
        :: .setBindGroup 1 (local_bind_group_id ((p.draw nodes).1) 1)
        :: .drawNode 1 (node_instance_count nodes 1)
        :: .setPipeline .lit
        :: .setBindGroup 0 ((p.draw nodes).1).global_bind_group
        :: lit_node_cmds ((p.draw nodes).1) nodes 0 := rfl
  refine ⟨n1, hn1, 0, 3, ?_, ?_, ?_, ?_, 4, ?_, ?_, ?_⟩
  · omega
  · rw [hcs]
    rfl
  · rw [hcs]
    simp [node_instance_count, hn1]
  · intro k hk
    rw [hcs] at hk
    match k with
    | 0 => simp at hk
    | 1 => simp at hk
    | 2 => simp at hk
    | 3 => simp at hk
    | (k' + 4) => omega
  · omega
  · rw [hcs]
    rfl
  · intro m nd hm
    refine ⟨3 * m + 2 + 1 + 1 + 1 + 1 + 1 + 1, by omega, ?_⟩
    rw [hcs]
    simp only [List.getElem?_cons_succ]
    have h := lit_node_cmds_drawNode nodes ((p.draw nodes).1) 0 m nd hm
    simpa using h

/-- Witness for C1: a concrete two-node scene (a grid node and the light
node at index 1) drawn from a fresh pass. -/
theorem draw_light_before_lit_witness :
    ∃ n1, ([nodeGrid, nodeLight] : List Node)[1]? = some n1 ∧
    ∃ (i j : Nat), i < j ∧
      (passFresh.draw [nodeGrid, nodeLight]).2[i]?
        = some (Cmd.setPipeline Pipeline.light) ∧
      (passFresh.draw [nodeGrid, nodeLight]).2[j]?
        = some (Cmd.drawNode 1 n1.instances.length) ∧
      (∀ (k : Nat), (passFresh.draw [nodeGrid, nodeLight]).2[k]?
          = some (Cmd.setPipeline Pipeline.lit) → j < k) ∧
      (∃ (k : Nat), j < k ∧
        (passFresh.draw [nodeGrid, nodeLight]).2[k]?
          = some (Cmd.setPipeline Pipeline.lit) ∧
        ∀ (m : Nat) (nd : Node), ([nodeGrid, nodeLight] : List Node)[m]? = some nd →
          ∃ (d : Nat), k < d ∧ (passFresh.draw [nodeGrid, nodeLight]).2[d]?
            = some (Cmd.drawNode m nd.instances.length)) :=
  draw_light_before_lit passFresh [nodeGrid, nodeLight] (by simp)

end Wgpu
